import Mathlib

/-!
Verification of the cyclejs-soundmanager-driver adapter.

The adapter (src/index.js and its xstream / rx-adapter variants) translates a
stream of sound commands into calls against the SoundManager2 audio engine and
translates the engine's lifecycle callbacks into a stream of sound events.

The embedding below models:
  * the sound handle, command and event values (section 3 of the design),
  * the command dispatcher (`commandExecutor` / `performCommand` /
    `performGlobalCommand` / `createSound`),
  * the lifecycle-callback event normalizer (the `onload` / `onplay` / ...
    callbacks registered in `createSound`),
  * the scope isolation pair (`isolateSink` / `isolateSource`).

Stateful JavaScript (the mutable `sounds` registry and in-place mutation of
handle objects) is modelled by explicit state passing over an association
list keyed by sound identifier.  The external engine's handle methods
(`play`, `pause`, `resume`, `stop`, `setPosition`, `setVolume`, `pauseAll`)
are modelled from the specification of the engine collaborator: each call is
recorded in an effect trace, and the lifecycle callbacks the engine fires
synchronously in response are recorded as emitted events in call order.
-/

namespace SoundDriver

/-- A JavaScript `scope` value as the adapter observes it.  `absent` stands
for any falsy value (`undefined`, `null`, `0`, the empty string): both
`cmd.scope || []` and `Array.isArray(evt.scope)` treat all of these alike.
`array` is a genuine array of scope labels.  `nonArray` stands for a truthy
value that is not an array (its `concat` result is again not an array). -/
inductive ScopeField where
  | absent
  | array (labels : List String)
  | nonArray
  deriving Repr, DecidableEq

/-- A sound handle as observed by the adapter: the engine-owned fields read
by `soundEvent` plus the adapter-attached `scope` tag. -/
structure Sound where
  id : String
  position : ℚ
  duration : ℚ
  muted : Bool
  volume : ℚ
  paused : Bool
  playState : Nat
  readyState : Nat
  url : String
  scope : ScopeField
  deriving Repr, DecidableEq

/-- A command value.  Every field is optional; JavaScript truthiness of each
field is tested by `truthyStr` / `truthyQ` below. -/
structure Command where
  src : Option String := none
  id : Option String := none
  action : Option String := none
  position : Option ℚ := none
  relative : Option ℚ := none
  progress : Option ℚ := none
  volume : Option ℚ := none
  scope : ScopeField := ScopeField.absent
  deriving Repr, DecidableEq

/-- JavaScript truthiness of an optional string field: present and non-empty. -/
def truthyStr : Option String → Bool
  | some s => s ≠ ""
  | none => false

/-- JavaScript truthiness of an optional numeric field: present and non-zero. -/
def truthyQ : Option ℚ → Bool
  | some q => q ≠ 0
  | none => false

/-- The payload of a normal sound event, with exactly the keys of the object
literal built by `soundEvent` in the source. -/
structure SoundEventData where
  id : Option String
  event : String
  position : ℚ
  duration : ℚ
  muted : Bool
  volume : ℚ
  paused : Bool
  playing : Bool
  src : String
  scope : ScopeField
  deriving Repr, DecidableEq

/-- An event on the output stream: either a normal sound event or the
error-variant object built by `soundError` (`{id, scope, src, error: true}`). -/
inductive Event where
  | sound (data : SoundEventData)
  | err (id : Option String) (scope : ScopeField) (src : String)
  deriving Repr, DecidableEq

/-- Translation of `soundEvent` from the source: the event object derived
from a handle's current state.  `volume` is forced to `0` while muted and
`playing` is recomputed as `!paused && playState === 1`. -/
def soundEvent (sound : Sound) (event : String) : SoundEventData :=
  { id := some sound.id
    event := event
    position := sound.position
    duration := sound.duration
    muted := sound.muted
    volume := if sound.muted then 0 else sound.volume
    paused := sound.paused
    playing := !sound.paused && sound.playState == 1
    src := sound.url
    scope := sound.scope }

/-- An engine entry point invoked by the adapter. -/
inductive EngineCall where
  | setPosition (id : String) (position : ℚ)
  | setVolume (id : String) (volume : ℚ)
  | method (id : String) (action : String)
  | pauseAllCall
  | globalAction (action : String)
  | create (src : String)
  deriving Repr, DecidableEq

/-- One entry of a dispatch trace: an engine call made by the adapter, an
event pushed with `onNext`, or a terminal stream error pushed with
`onError`. -/
inductive Eff where
  | call (c : EngineCall)
  | next (e : Event)
  | err (msg : String)
  deriving Repr, DecidableEq

/-- The sound registry: the module-level `sounds` object, keyed by the
handle identifier, in property-insertion order. -/
abbrev Registry := List (String × Sound)

/-- Registry lookup, `sounds[id]`. -/
def lookupSound : Registry → String → Option Sound
  | [], _ => none
  | (j, t) :: rest, i => if j = i then some t else lookupSound rest i

/-- Registry assignment, `sounds[id] = s`: replace the entry at an existing
key in place, append a fresh key at the end. -/
def setSound : Registry → String → Sound → Registry
  | [], i, s => [(i, s)]
  | (j, t) :: rest, i, s =>
      if j = i then (i, s) :: rest else (j, t) :: setSound rest i s

/-- Modelled from the spec: the engine's `pause` on one handle.  A playing
handle becomes paused and its `onpause` callback fires, which the adapter
translates to a `pause` event reflecting the already-updated state; pausing
a sound that is not playing is a no-op. -/
def enginePauseSound (s : Sound) : Sound × List Eff :=
  if !s.paused && s.playState == 1 then
    let s' := { s with paused := true }
    (s', [Eff.next (Event.sound (soundEvent s' "pause"))])
  else (s, [])

/-- Modelled from the spec: the engine's global `pauseAll`, pausing every
sound in creation order and firing the `onpause` callbacks along the way. -/
def pauseAllReg : Registry → Registry × List Eff
  | [] => ([], [])
  | (j, t) :: rest =>
      let pr := enginePauseSound t
      let prs := pauseAllReg rest
      ((j, pr.1) :: prs.1, pr.2 ++ prs.2)

/-- Modelled from the spec: the engine handle method named by an `action`
command field (`sound[action]()`).  `play` starts or restarts playback and
fires `onplay`; `resume` unpauses a paused sound and fires `onresume`;
`pause` and `stop` fire `onpause` / `onstop` when the sound was playing.
The adapter maps both `onplay` and `onresume` to a `play` event.  Action
names other than the four documented handle methods are modelled as engine
no-ops. -/
def engineAction (s : Sound) (a : String) : Sound × List Eff :=
  if a = "play" then
    let s' := { s with paused := false, playState := 1 }
    (s', [Eff.next (Event.sound (soundEvent s' "play"))])
  else if a = "resume" then
    if s.paused then
      let s' := { s with paused := false }
      (s', [Eff.next (Event.sound (soundEvent s' "play"))])
    else (s, [])
  else if a = "pause" then
    enginePauseSound s
  else if a = "stop" then
    if s.playState == 1 then
      let s' := { s with playState := 0, paused := false, position := 0 }
      (s', [Eff.next (Event.sound (soundEvent s' "stop"))])
    else (s, [])
  else (s, [])

/-- The body of `performCommand` once the handle has been found, threading
the registry through the side effects that JavaScript performs by mutating
the handle object in place.  Field order is as in the source: `position`,
`relative` (via `setRelativePosition`), `progress`, `action` (preceded by
`soundManager.pauseAll()` for `play` and `resume`), `volume`, and finally
the synthetic `update` event. -/
def performUpdate (reg : Registry) (c : Command) (i : String) (s0 : Sound) :
    Registry × List Eff :=
  let p := c.position.getD 0
  let s1 := if truthyQ c.position then { s0 with position := p } else s0
  let t1 := if truthyQ c.position then
      [Eff.call (EngineCall.setPosition i p)] else ([] : List Eff)
  let r := c.relative.getD 0
  let s2 := if truthyQ c.relative then { s1 with position := s1.position + r } else s1
  let t2 := if truthyQ c.relative then
      [Eff.call (EngineCall.setPosition i (s1.position + r))] else ([] : List Eff)
  let q := c.progress.getD 0
  let s3 := if truthyQ c.progress then { s2 with position := s2.duration * q } else s2
  let t3 := if truthyQ c.progress then
      [Eff.call (EngineCall.setPosition i (s2.duration * q))] else ([] : List Eff)
  let reg3 := setSound reg i s3
  let a := c.action.getD ""
  let doPauseAll := truthyStr c.action && (a == "play" || a == "resume")
  let paRes := pauseAllReg reg3
  let reg4 := if doPauseAll then paRes.1 else reg3
  let t4 := if doPauseAll then
      Eff.call EngineCall.pauseAllCall :: paRes.2 else ([] : List Eff)
  let s4 := if doPauseAll then (enginePauseSound s3).1 else s3
  let actRes := engineAction s4 a
  let s5 := if truthyStr c.action then actRes.1 else s4
  let t5 := if truthyStr c.action then
      Eff.call (EngineCall.method i a) :: actRes.2 else ([] : List Eff)
  let reg5 := if truthyStr c.action then setSound reg4 i s5 else reg4
  let v := c.volume.getD 0
  let s6 := if truthyQ c.volume then { s5 with volume := v } else s5
  let t6 := if truthyQ c.volume then
      [Eff.call (EngineCall.setVolume i v)] else ([] : List Eff)
  let reg6 := setSound reg5 i s6
  (reg6, (t1 ++ t2 ++ t3 ++ t4 ++ t5 ++ t6) ++
    [Eff.next (Event.sound (soundEvent s6 "update"))])

/-- Translation of `performCommand` from the source: look the command's
`id` up in the registry, push the terminal `Could not find sound` stream
error when it is missing, and otherwise run the update body. -/
def performCommand (reg : Registry) (c : Command) : Registry × List Eff :=
  match lookupSound reg (c.id.getD "") with
  | none => (reg, [Eff.err "Could not find sound"])
  | some s0 => performUpdate reg c (c.id.getD "") s0

/-- The result of dispatching one command: the registry afterwards, the
effect trace, and the message of a synchronously thrown error, if any. -/
structure DispatchResult where
  registry : Registry
  trace : List Eff
  thrown : Option String
  deriving DecidableEq

/-- Translation of `createSound` from the source.  The engine's
`soundManager.createSound` response is passed in as `engineHandle`: `some`
holds the fresh handle the engine returned, `none` models a synchronous
creation failure.  A missing or empty `src` throws before the engine is
called; on success the command's scope is copied onto the handle and the
handle is registered; on failure an error-variant event with a null id is
emitted instead. -/
def createSound (reg : Registry) (c : Command) (engineHandle : Option Sound) :
    DispatchResult :=
  if truthyStr c.src then
    let src := c.src.getD ""
    match engineHandle with
    | some h =>
        let h' := { h with scope := c.scope }
        { registry := setSound reg h'.id h'
          trace := [Eff.call (EngineCall.create src)]
          thrown := none }
    | none =>
        { registry := reg
          trace := [Eff.call (EngineCall.create src),
                    Eff.next (Event.err none c.scope src)]
          thrown := none }
  else
    { registry := reg
      trace := []
      thrown := some "Sound src must be set" }

/-- Translation of `performGlobalCommand` from the xstream / rx-adapter
variants: `soundManager[command.action]()`.  Only `pauseAll` is given engine
semantics (it is the one global action the adapter itself relies on); other
global action names are recorded as bare engine calls. -/
def performGlobalCommand (reg : Registry) (c : Command) : DispatchResult :=
  let a := c.action.getD ""
  if a = "pauseAll" then
    let pr := pauseAllReg reg
    { registry := pr.1
      trace := Eff.call (EngineCall.globalAction a) :: pr.2
      thrown := none }
  else
    { registry := reg
      trace := [Eff.call (EngineCall.globalAction a)]
      thrown := none }

/-- Translation of `commandExecutor` from the xstream / rx-adapter variants:
a truthy `id` selects the update path, otherwise a truthy `action` selects
the global-action path, otherwise the creation path. -/
def dispatch (reg : Registry) (c : Command) (engineHandle : Option Sound) :
    DispatchResult :=
  if truthyStr c.id then
    let pr := performCommand reg c
    { registry := pr.1, trace := pr.2, thrown := none }
  else if truthyStr c.action then
    performGlobalCommand reg c
  else
    createSound reg c engineHandle

/-- Translation of `commandExecutor` from the main ES source (src/index.js):
a truthy `id` selects the update path and every other command goes to the
creation path — this variant has no global-action branch. -/
def dispatchMain (reg : Registry) (c : Command) (engineHandle : Option Sound) :
    DispatchResult :=
  if truthyStr c.id then
    let pr := performCommand reg c
    { registry := pr.1, trace := pr.2, thrown := none }
  else
    createSound reg c engineHandle

/-- A lifecycle callback fired by the engine on one handle.  `onfailure`
carries the engine's error payload argument. -/
inductive Callback where
  | onload
  | onfinish
  | onpause
  | onplay
  | onresume
  | onstop
  | whileplaying
  | onfailure (err : String)
  deriving Repr, DecidableEq

/-- Translation of the callback block registered in `createSound`: the
events the adapter emits when the engine fires one callback on a handle in
state `s`.  `onload` emits `load` at ready-state 3 and the error variant at
ready-state 2; `onplay` and `onresume` both emit `play`; `onfailure`
invokes the three-parameter `soundEvent` with a fourth argument, so the
error payload does not appear in the emitted event. -/
def fireCallback (s : Sound) : Callback → List Event
  | Callback.onload =>
      (if s.readyState == 3 then [Event.sound (soundEvent s "load")] else []) ++
      (if s.readyState == 2 then [Event.err (some s.id) s.scope s.url] else [])
  | Callback.onfinish => [Event.sound (soundEvent s "finish")]
  | Callback.onpause => [Event.sound (soundEvent s "pause")]
  | Callback.onplay => [Event.sound (soundEvent s "play")]
  | Callback.onresume => [Event.sound (soundEvent s "play")]
  | Callback.onstop => [Event.sound (soundEvent s "stop")]
  | Callback.whileplaying => [Event.sound (soundEvent s "playing")]
  | Callback.onfailure _ => [Event.sound (soundEvent s "failure")]

/-- The events emitted over a sequence of callback firings, each paired with
the handle state the engine presents at firing time. -/
def callbackTrace : List (Sound × Callback) → List Event
  | [] => []
  | (s, cb) :: rest => fireCallback s cb ++ callbackTrace rest

/-- Translation of the mapping function inside `isolateSink`:
`{...cmd, scope: (cmd.scope || []).concat(scope)}` on the scope field. -/
def scopeAppend : ScopeField → String → ScopeField
  | ScopeField.absent, l => ScopeField.array [l]
  | ScopeField.array ls, l => ScopeField.array (ls ++ [l])
  | ScopeField.nonArray, _ => ScopeField.nonArray

/-- Translation of `isolateSink` on a single command: a fresh command whose
scope sequence has the label appended, all other fields taken over
unchanged. -/
def isolateSinkCmd (c : Command) (l : String) : Command :=
  { c with scope := scopeAppend c.scope l }

/-- Translation of the filter predicate inside `isolateSource`:
`Array.isArray(evt.scope) && evt.scope.indexOf(scope) !== -1`. -/
def scopeHas : ScopeField → String → Bool
  | ScopeField.array ls, l => ls.contains l
  | _, _ => false

/-- The scope field of an output event (both event shapes carry one). -/
def eventScope : Event → ScopeField
  | Event.sound e => e.scope
  | Event.err _ sc _ => sc

/-- The identifier of an output event. -/
def eventId : Event → Option String
  | Event.sound e => e.id
  | Event.err i _ _ => i

/-- Translation of `isolateSource` on the events of the stream: keep the
events whose scope sequence contains the label. -/
def isolateSourceEvents (evts : List Event) (l : String) : List Event :=
  evts.filter (fun e => scopeHas (eventScope e) l)

/-- Nested source isolation: the returned stream re-exposes `isolateSource`,
so a consumer can isolate repeatedly, filtering once per label. -/
def isolateSourceNested (evts : List Event) (labels : List String) : List Event :=
  labels.foldl isolateSourceEvents evts

/-- Whether an output event is the `load` event or the error variant — the
two event shapes the `onload` callback can produce. -/
def isLoadOrError : Event → Bool
  | Event.sound ev => ev.event == "load"
  | Event.err _ _ _ => true

/-- Whether a trace entry is a synthetic `update` event. -/
def isUpdateEff : Eff → Bool
  | Eff.next (Event.sound e) => e.event == "update"
  | _ => false

/-- The engine call held by a trace entry, if any. -/
def callOf : Eff → Option EngineCall
  | Eff.call ec => some ec
  | _ => none

/-- The projection of a trace to the engine calls it contains, in order. -/
def callsOf (t : List Eff) : List EngineCall :=
  t.filterMap callOf

/-- A concrete loaded handle used to exercise the `onfailure` callback. -/
def failSound : Sound :=
  { id := "sound0"
    position := 10
    duration := 1200
    muted := false
    volume := 50
    paused := false
    playState := 1
    readyState := 3
    url := "/test/test.mp3"
    scope := ScopeField.absent }

/-- A concrete loaded handle carrying the scope tag `["x"]`, used to
instantiate hypotheses of the claim theorems at concrete inputs. -/
def sampleSound : Sound :=
  { id := "sound1"
    position := 0
    duration := 2000
    muted := false
    volume := 80
    paused := false
    playState := 0
    readyState := 3
    url := "/a.mp3"
    scope := ScopeField.array ["x"] }

/-- A concrete handle that is currently playing, used to instantiate the
at-most-one-playing claim at a concrete input. -/
def playingSound : Sound :=
  { id := "sound0"
    position := 400
    duration := 1500
    muted := false
    volume := 60
    paused := false
    playState := 1
    readyState := 3
    url := "/b.mp3"
    scope := ScopeField.absent }

/-- A concrete update command exercising every update-path field at once. -/
def updateCmd : Command :=
  { id := some "sound1"
    position := some 500
    relative := some 250
    progress := some (1 / 2)
    action := some "play"
    volume := some 80 }

/-! Helper lemmas about the engine model and the registry. -/

theorem pauseAllReg_fst (reg : Registry) :
    (pauseAllReg reg).1.map Prod.fst = reg.map Prod.fst := by
  induction reg with
  | nil => rfl
  | cons hd tl ih => simp [pauseAllReg, ih]

theorem pauseAllReg_trace_events (reg : Registry) :
    ∀ e ∈ (pauseAllReg reg).2,
      ∃ s, e = Eff.next (Event.sound (soundEvent s "pause")) := by
  induction reg with
  | nil => intro e he; simp [pauseAllReg] at he
  | cons hd tl ih =>
      intro e he
      simp only [pauseAllReg, List.mem_append] at he
      rcases he with h1 | h2
      · by_cases hc : (!hd.2.paused && hd.2.playState == 1) = true
        · simp [enginePauseSound, hc] at h1
          exact ⟨_, h1⟩
        · simp [enginePauseSound, hc] at h1
      · exact ih e h2

theorem lookup_setSound_same (reg : Registry) (i : String) (s : Sound) :
    lookupSound (setSound reg i s) i = some s := by
  induction reg with
  | nil => simp [setSound, lookupSound]
  | cons hd tl ih =>
      by_cases hj : hd.1 = i
      · simp [setSound, hj, lookupSound]
      · simp [setSound, hj, lookupSound, ih]

theorem mem_setSound_of_ne (reg : Registry) (i j : String) (s t : Sound)
    (hmem : (j, t) ∈ reg) (hne : j ≠ i) :
    (j, t) ∈ setSound reg i s := by
  induction reg with
  | nil => simp at hmem
  | cons hd tl ih =>
      rcases List.mem_cons.mp hmem with h1 | h2
      · subst h1
        by_cases hj : j = i
        · exact absurd hj hne
        · simp [setSound, hj]
      · by_cases hj : hd.1 = i
        · simp [setSound, hj, h2]
        · simp only [setSound, if_neg hj, List.mem_cons]
          exact Or.inr (ih h2)

/-! Claim theorems. -/

/-- C1 (counterexample): in the main ES-source dispatcher (src/index.js,
`commandExecutor` without a global-action branch), the command
`{action: "pauseAll"}` — a non-empty `action` and no `id` — does not take a
global-action path: it is routed to the creation path and raises the
synchronous `InvalidCommand` error `Sound src must be set`, contradicting
the claim that such a command raises no error. -/
theorem globalAction_main_dispatcher_error :
    truthyStr (({ action := some "pauseAll" } : Command).action) = true
    ∧ truthyStr (({ action := some "pauseAll" } : Command).id) = false
    ∧ dispatchMain [] { action := some "pauseAll" } none =
        { registry := [], trace := [], thrown := some "Sound src must be set" } := by
  refine ⟨by decide, by decide, by decide⟩

/-- C1 (amended): in the dispatcher variants that carry a global-action
branch (`commandExecutor` / `performGlobalCommand` of the xstream and
rx-adapter variants), every command with a non-empty `action` and no `id`
takes the global-action path: the named action is invoked on the engine
singleton, no sound is created (the registry keys are unchanged), nothing
is thrown and no stream error is emitted — the only further trace entries
are the `pause` events of the engine's own `pauseAll` sweep. -/
theorem globalAction_path (reg : Registry) (c : Command) (h : Option Sound)
    (hact : truthyStr c.action = true) (hid : truthyStr c.id = false) :
    (dispatch reg c h).thrown = none
    ∧ (dispatch reg c h).registry.map Prod.fst = reg.map Prod.fst
    ∧ ∃ rest, (dispatch reg c h).trace =
        Eff.call (EngineCall.globalAction (c.action.getD "")) :: rest
        ∧ ∀ e ∈ rest, ∃ s, e = Eff.next (Event.sound (soundEvent s "pause")) := by
  have hd : dispatch reg c h = performGlobalCommand reg c := by
    simp [dispatch, hid, hact]
  rw [hd]
  simp only [performGlobalCommand]
  by_cases ha : c.action.getD "" = "pauseAll"
  · rw [if_pos ha]
    exact ⟨rfl, pauseAllReg_fst reg,
      (pauseAllReg reg).2, rfl, pauseAllReg_trace_events reg⟩
  · rw [if_neg ha]
    exact ⟨rfl, rfl, [], rfl, by simp⟩

theorem globalAction_path_witness :
    (dispatch [] { action := some "resumeAll" } none).thrown = none
    ∧ (dispatch [] { action := some "resumeAll" } none).registry.map Prod.fst =
        ([] : Registry).map Prod.fst
    ∧ ∃ rest, (dispatch [] { action := some "resumeAll" } none).trace =
        Eff.call (EngineCall.globalAction
          ((({ action := some "resumeAll" } : Command).action).getD "")) :: rest
        ∧ ∀ e ∈ rest, ∃ s, e = Eff.next (Event.sound (soundEvent s "pause")) :=
  globalAction_path [] { action := some "resumeAll" } none (by decide) (by decide)

/-- C2: dispatching a command with a truthy `id` that is not a key of the
sound registry pushes the terminal stream error `Could not find sound`
(`obs.onError`, which ends the shared output stream for every subscriber
under the reactive library's contract), emits no event, performs no engine
call, and leaves the registry unchanged. -/
theorem soundNotFound_terminal (reg : Registry) (c : Command) (h : Option Sound)
    (hid : truthyStr c.id = true)
    (hmiss : lookupSound reg (c.id.getD "") = none) :
    dispatch reg c h =
      { registry := reg, trace := [Eff.err "Could not find sound"], thrown := none } := by
  simp [dispatch, hid, performCommand, hmiss]

theorem soundNotFound_terminal_witness :
    dispatch [] { id := some "sound0" } none =
      { registry := [], trace := [Eff.err "Could not find sound"], thrown := none } :=
  soundNotFound_terminal [] { id := some "sound0" } none (by decide) rfl

/-- C6 (code evaluated at the failing input): the `onfailure` callback
invokes the three-parameter `soundEvent` with the error payload as an
ignored fourth argument, so the emitted `failure` event is the plain state
snapshot of the handle and is identical for two different engine error
payloads — the payload cannot be carried by the event. -/
theorem onfailure_payload_dropped :
    fireCallback failSound (Callback.onfailure "disk error") =
      [Event.sound (soundEvent failSound "failure")]
    ∧ fireCallback failSound (Callback.onfailure "disk error") =
        fireCallback failSound (Callback.onfailure "network error") :=
  ⟨rfl, rfl⟩

/-- C7: a command that reaches the creation path (no truthy `id`, no truthy
`action`) with a missing or empty `src` makes the dispatcher throw the
synchronous `InvalidCommand` error `Sound src must be set`: nothing is
emitted on the stream and the registry is unchanged. -/
theorem invalidCommand_throws (reg : Registry) (c : Command) (h : Option Sound)
    (hid : truthyStr c.id = false) (hact : truthyStr c.action = false)
    (hsrc : truthyStr c.src = false) :
    dispatch reg c h =
      { registry := reg, trace := [], thrown := some "Sound src must be set" } := by
  simp [dispatch, hid, hact, createSound, hsrc]

theorem invalidCommand_throws_witness :
    dispatch [] { src := some "" } none =
      { registry := [], trace := [], thrown := some "Sound src must be set" } :=
  invalidCommand_throws [] { src := some "" } none (by decide) (by decide) (by decide)

/-- C8: when the engine returns no handle for a creation command (a
synchronous creation failure), the dispatcher emits a single error-variant
event carrying a null id, the command's `src` and the command's scope; it
throws nothing and adds no registry entry. -/
theorem failedCreation_event (reg : Registry) (c : Command) (src : String)
    (hid : truthyStr c.id = false) (hact : truthyStr c.action = false)
    (hsrc : c.src = some src) (hne : src ≠ "") :
    dispatch reg c none =
      { registry := reg
        trace := [Eff.call (EngineCall.create src),
                  Eff.next (Event.err none c.scope src)]
        thrown := none } := by
  have h1 : dispatch reg c none = createSound reg c none := by
    simp [dispatch, hid, hact]
  rw [h1]
  simp [createSound, truthyStr, hsrc, hne]

theorem failedCreation_event_witness :
    dispatch [] { src := some "/test/test.mp3", scope := ScopeField.array ["x"] } none =
      { registry := []
        trace := [Eff.call (EngineCall.create "/test/test.mp3"),
                  Eff.next (Event.err none (ScopeField.array ["x"]) "/test/test.mp3")]
        thrown := none } :=
  failedCreation_event [] { src := some "/test/test.mp3", scope := ScopeField.array ["x"] }
    "/test/test.mp3" (by decide) (by decide) rfl (by decide)

theorem mem_isolateSourceNested (labels : List String) (evts : List Event)
    (e : Event) (hmem : e ∈ isolateSourceNested evts labels) :
    e ∈ evts ∧ ∀ l ∈ labels, scopeHas (eventScope e) l = true := by
  induction labels generalizing evts with
  | nil => exact ⟨hmem, by simp⟩
  | cons l ls ih =>
      obtain ⟨h1, h2⟩ := ih (isolateSourceEvents evts l) hmem
      have h3 := List.mem_filter.mp h1
      refine ⟨h3.1, ?_⟩
      intro l' hl'
      rcases List.mem_cons.mp hl' with h4 | h4
      · subst h4
        exact h3.2
      · exact h2 l' h4

theorem fireCallback_onload_id (s : Sound) :
    ∀ e ∈ fireCallback s Callback.onload, eventId e = some s.id := by
  intro e he
  simp only [fireCallback, List.mem_append] at he
  rcases he with h | h
  · by_cases h3 : (s.readyState == 3) = true
    · simp only [h3, if_true, List.mem_singleton] at h
      subst h
      rfl
    · simp [h3] at h
  · by_cases h2 : (s.readyState == 2) = true
    · simp only [h2, if_true, List.mem_singleton] at h
      subst h
      rfl
    · simp [h2] at h

theorem callbackTrace_no_load (rest : List (Sound × Callback)) (i : String)
    (hrest : ∀ p ∈ rest, p.2 = Callback.onload → p.1.id ≠ i) :
    ∀ e ∈ callbackTrace rest, eventId e = some i → isLoadOrError e = false := by
  induction rest with
  | nil => intro e he; simp [callbackTrace] at he
  | cons hd tl ih =>
      obtain ⟨s', cb⟩ := hd
      intro e he hid
      simp only [callbackTrace, List.mem_append] at he
      rcases he with h1 | h2
      · cases cb with
        | onload =>
            have hne := hrest (s', Callback.onload) (List.mem_cons_self _ _) rfl
            have hids := fireCallback_onload_id s' e h1
            rw [hid] at hids
            exact absurd (Option.some.inj hids).symm hne
        | onfinish => simp only [fireCallback, List.mem_singleton] at h1; subst h1; rfl
        | onpause => simp only [fireCallback, List.mem_singleton] at h1; subst h1; rfl
        | onplay => simp only [fireCallback, List.mem_singleton] at h1; subst h1; rfl
        | onresume => simp only [fireCallback, List.mem_singleton] at h1; subst h1; rfl
        | onstop => simp only [fireCallback, List.mem_singleton] at h1; subst h1; rfl
        | whileplaying => simp only [fireCallback, List.mem_singleton] at h1; subst h1; rfl
        | onfailure err => simp only [fireCallback, List.mem_singleton] at h1; subst h1; rfl
      · exact ih (fun p hp => hrest p (List.mem_cons_of_mem _ hp)) e h2 hid

/-- C5: when the engine fires `onload` first for a handle (once, with the
decode outcome in the ready-state), the adapter emits exactly one `load`
event (ready-state 3) or exactly one error-variant event (ready-state 2)
as the very first event, and no later callback of that handle can emit a
`load` or error-variant event again. -/
theorem onload_first_event (s : Sound) (rest : List (Sound × Callback))
    (hready : s.readyState = 3 ∨ s.readyState = 2)
    (hrest : ∀ p ∈ rest, p.2 = Callback.onload → p.1.id ≠ s.id) :
    ∃ e0, callbackTrace ((s, Callback.onload) :: rest) = e0 :: callbackTrace rest
      ∧ (s.readyState = 3 → e0 = Event.sound (soundEvent s "load"))
      ∧ (s.readyState = 2 → e0 = Event.err (some s.id) s.scope s.url)
      ∧ isLoadOrError e0 = true
      ∧ eventId e0 = some s.id
      ∧ ∀ e ∈ callbackTrace rest, eventId e = some s.id → isLoadOrError e = false := by
  rcases hready with h3 | h2
  · refine ⟨Event.sound (soundEvent s "load"), ?_, fun _ => rfl, ?_, rfl, rfl,
      callbackTrace_no_load rest s.id hrest⟩
    · simp [callbackTrace, fireCallback, h3]
    · intro h2'
      rw [h3] at h2'
      exact absurd h2' (by decide)
  · refine ⟨Event.err (some s.id) s.scope s.url, ?_, ?_, fun _ => rfl, rfl, rfl,
      callbackTrace_no_load rest s.id hrest⟩
    · simp [callbackTrace, fireCallback, h2]
    · intro h3'
      rw [h2] at h3'
      exact absurd h3' (by decide)

theorem onload_first_event_witness :
    ∃ e0, callbackTrace ((sampleSound, Callback.onload) ::
        [(sampleSound, Callback.whileplaying)]) =
        e0 :: callbackTrace [(sampleSound, Callback.whileplaying)]
      ∧ (sampleSound.readyState = 3 → e0 = Event.sound (soundEvent sampleSound "load"))
      ∧ (sampleSound.readyState = 2 →
          e0 = Event.err (some sampleSound.id) sampleSound.scope sampleSound.url)
      ∧ isLoadOrError e0 = true
      ∧ eventId e0 = some sampleSound.id
      ∧ ∀ e ∈ callbackTrace [(sampleSound, Callback.whileplaying)],
          eventId e = some sampleSound.id → isLoadOrError e = false :=
  onload_first_event sampleSound [(sampleSound, Callback.whileplaying)]
    (Or.inl rfl) (by decide)

/-- C9: scope propagation is end-to-end — `isolateSink` yields a fresh
command whose scope is the old sequence with the label appended (an empty
sequence is initialized when the scope was absent) and all other fields
unchanged; `createSound` copies the command's scope onto the created
handle; every event derived from a handle carries the handle's scope; and
an event delivered through a nest of isolated sources must contain every
label of the nest in its scope sequence. -/
theorem scope_end_to_end (c : Command) (l : String) (reg : Registry) (h : Sound)
    (s : Sound) (kind : String) (labels : List String) (evts : List Event) (e : Event)
    (hsrc : truthyStr c.src = true)
    (hmem : e ∈ isolateSourceNested evts labels) :
    (isolateSinkCmd c l).scope = scopeAppend c.scope l
    ∧ (c.scope = ScopeField.absent → (isolateSinkCmd c l).scope = ScopeField.array [l])
    ∧ (∀ ls, c.scope = ScopeField.array ls →
        (isolateSinkCmd c l).scope = ScopeField.array (ls ++ [l]))
    ∧ (isolateSinkCmd c l).src = c.src
    ∧ (isolateSinkCmd c l).id = c.id
    ∧ (isolateSinkCmd c l).action = c.action
    ∧ (isolateSinkCmd c l).position = c.position
    ∧ (isolateSinkCmd c l).relative = c.relative
    ∧ (isolateSinkCmd c l).progress = c.progress
    ∧ (isolateSinkCmd c l).volume = c.volume
    ∧ (createSound reg c (some h)).registry =
        setSound reg h.id { h with scope := c.scope }
    ∧ (soundEvent s kind).scope = s.scope
    ∧ ∀ lab ∈ labels, scopeHas (eventScope e) lab = true := by
  refine ⟨rfl, ?_, ?_, rfl, rfl, rfl, rfl, rfl, rfl, rfl, ?_, rfl,
    (mem_isolateSourceNested labels evts e hmem).2⟩
  · intro hc
    simp [isolateSinkCmd, scopeAppend, hc]
  · intro ls hc
    simp [isolateSinkCmd, scopeAppend, hc]
  · simp [createSound, hsrc]

theorem scope_end_to_end_witness :
    (isolateSinkCmd { src := some "/a.mp3" } "y").scope =
      scopeAppend (({ src := some "/a.mp3" } : Command)).scope "y"
    ∧ ((({ src := some "/a.mp3" } : Command)).scope = ScopeField.absent →
        (isolateSinkCmd { src := some "/a.mp3" } "y").scope = ScopeField.array ["y"])
    ∧ (∀ ls, (({ src := some "/a.mp3" } : Command)).scope = ScopeField.array ls →
        (isolateSinkCmd { src := some "/a.mp3" } "y").scope = ScopeField.array (ls ++ ["y"]))
    ∧ (isolateSinkCmd { src := some "/a.mp3" } "y").src =
        (({ src := some "/a.mp3" } : Command)).src
    ∧ (isolateSinkCmd { src := some "/a.mp3" } "y").id =
        (({ src := some "/a.mp3" } : Command)).id
    ∧ (isolateSinkCmd { src := some "/a.mp3" } "y").action =
        (({ src := some "/a.mp3" } : Command)).action
    ∧ (isolateSinkCmd { src := some "/a.mp3" } "y").position =
        (({ src := some "/a.mp3" } : Command)).position
    ∧ (isolateSinkCmd { src := some "/a.mp3" } "y").relative =
        (({ src := some "/a.mp3" } : Command)).relative
    ∧ (isolateSinkCmd { src := some "/a.mp3" } "y").progress =
        (({ src := some "/a.mp3" } : Command)).progress
    ∧ (isolateSinkCmd { src := some "/a.mp3" } "y").volume =
        (({ src := some "/a.mp3" } : Command)).volume
    ∧ (createSound [] { src := some "/a.mp3" } (some sampleSound)).registry =
        setSound [] sampleSound.id
          { sampleSound with scope := (({ src := some "/a.mp3" } : Command)).scope }
    ∧ (soundEvent sampleSound "load").scope = sampleSound.scope
    ∧ ∀ lab ∈ ["x"],
        scopeHas (eventScope (Event.sound (soundEvent sampleSound "load"))) lab = true :=
  scope_end_to_end { src := some "/a.mp3" } "y" [] sampleSound
    sampleSound "load" ["x"] [Event.sound (soundEvent sampleSound "load")]
    (Event.sound (soundEvent sampleSound "load")) (by decide) (by decide)

/-- C10 (implicit): the `isolateSource` filter demands that the event's
scope field be an array containing the label, so an event whose scope is
absent or not an array is never delivered through any isolated source at
any nesting depth; in particular a sound created by a command whose scope
was never touched by `isolateSink` (scope absent) only yields events with
an absent scope. -/
theorem badScope_never_delivered (labels : List String) (evts : List Event)
    (e : Event) (c : Command) (s : Sound) (kind : String)
    (hlabels : labels ≠ [])
    (hbad : eventScope e = ScopeField.absent ∨ eventScope e = ScopeField.nonArray) :
    e ∉ isolateSourceNested evts labels
    ∧ (c.scope = ScopeField.absent →
        eventScope (Event.sound (soundEvent { s with scope := c.scope } kind)) =
          ScopeField.absent) := by
  constructor
  · intro hmem
    obtain ⟨-, hall⟩ := mem_isolateSourceNested labels evts e hmem
    obtain ⟨l, hl⟩ := List.exists_mem_of_ne_nil labels hlabels
    have hpass := hall l hl
    rcases hbad with hb | hb <;> rw [hb] at hpass <;> simp [scopeHas] at hpass
  · intro hc
    simp [soundEvent, eventScope, hc]

theorem badScope_never_delivered_witness :
    (Event.err none ScopeField.absent "/a.mp3") ∉ isolateSourceNested
        [Event.err none ScopeField.absent "/a.mp3"] ["x"]
    ∧ ((({ src := some "/a.mp3" } : Command)).scope = ScopeField.absent →
        eventScope (Event.sound (soundEvent
          { sampleSound with scope := (({ src := some "/a.mp3" } : Command)).scope }
          "load")) = ScopeField.absent) :=
  badScope_never_delivered ["x"]
    [Event.err none ScopeField.absent "/a.mp3"]
    (Event.err none ScopeField.absent "/a.mp3")
    { src := some "/a.mp3" } sampleSound "load" (by decide) (Or.inl rfl)

theorem callsOf_nil : callsOf [] = [] := rfl

theorem callsOf_append (t u : List Eff) :
    callsOf (t ++ u) = callsOf t ++ callsOf u := by
  simp [callsOf]

theorem callsOf_cons_call (ec : EngineCall) (t : List Eff) :
    callsOf (Eff.call ec :: t) = ec :: callsOf t := by
  simp [callsOf, callOf]

theorem callsOf_cons_next (e : Event) (t : List Eff) :
    callsOf (Eff.next e :: t) = callsOf t := by
  simp [callsOf, callOf]

theorem enginePauseSound_callsOf (s : Sound) :
    callsOf (enginePauseSound s).2 = [] := by
  by_cases hc : (!s.paused && s.playState == 1) = true
  · simp [enginePauseSound, hc, callsOf, callOf]
  · simp [enginePauseSound, hc, callsOf]

theorem enginePauseSound_countP (s : Sound) :
    (enginePauseSound s).2.countP isUpdateEff = 0 := by
  by_cases hc : (!s.paused && s.playState == 1) = true
  · simp [enginePauseSound, hc, isUpdateEff, soundEvent]
  · simp [enginePauseSound, hc]

theorem pauseAllReg_callsOf (reg : Registry) :
    callsOf (pauseAllReg reg).2 = [] := by
  induction reg with
  | nil => rfl
  | cons hd tl ih =>
      simp [pauseAllReg, callsOf_append, enginePauseSound_callsOf, ih]

theorem pauseAllReg_countP (reg : Registry) :
    (pauseAllReg reg).2.countP isUpdateEff = 0 := by
  induction reg with
  | nil => rfl
  | cons hd tl ih =>
      simp [pauseAllReg, List.countP_append, enginePauseSound_countP, ih]

theorem engineAction_callsOf (s : Sound) (a : String) :
    callsOf (engineAction s a).2 = [] := by
  unfold engineAction
  split_ifs <;>
    first
      | exact enginePauseSound_callsOf s
      | simp [callsOf, callOf]

theorem engineAction_countP (s : Sound) (a : String) :
    (engineAction s a).2.countP isUpdateEff = 0 := by
  unfold engineAction
  split_ifs <;>
    simp [enginePauseSound_countP, isUpdateEff, soundEvent]

/-- C3: on the update path the truthy fields are applied in exactly the
order absolute `position`, `relative` offset added to the current position,
`progress` fraction times the duration, `action` invoked as a handle method
(preceded by the engine-wide pause for `play`/`resume`), then `volume` —
witnessed by the ordered engine-call projection of the trace — and after
all fields exactly one synthetic `update` event is emitted, last in the
trace, reflecting the handle's final registry state. -/
theorem update_order (reg : Registry) (c : Command) (i : String) (s0 : Sound)
    (hid : c.id = some i) (hfound : lookupSound reg i = some s0) :
    ∃ regF sF t,
      performCommand reg c =
        (regF, t ++ [Eff.next (Event.sound (soundEvent sF "update"))])
      ∧ lookupSound regF i = some sF
      ∧ t.countP isUpdateEff = 0
      ∧ callsOf t =
          (if truthyQ c.position then
            [EngineCall.setPosition i (c.position.getD 0)] else [])
          ++ (if truthyQ c.relative then
                [EngineCall.setPosition i
                  ((if truthyQ c.position then c.position.getD 0 else s0.position)
                    + c.relative.getD 0)] else [])
          ++ (if truthyQ c.progress then
                [EngineCall.setPosition i (s0.duration * c.progress.getD 0)] else [])
          ++ (if truthyStr c.action
                && (c.action.getD "" == "play" || c.action.getD "" == "resume")
              then [EngineCall.pauseAllCall] else [])
          ++ (if truthyStr c.action then
                [EngineCall.method i (c.action.getD "")] else [])
          ++ (if truthyQ c.volume then
                [EngineCall.setVolume i (c.volume.getD 0)] else []) := by
  have h1 : performCommand reg c = performUpdate reg c i s0 := by
    unfold performCommand
    rw [hid]
    simp only [Option.getD_some]
    rw [hfound]
  rw [h1]
  simp only [performUpdate]
  refine ⟨_, _, _, rfl, lookup_setSound_same _ _ _, ?_, ?_⟩
  · simp [List.countP_append, List.countP_cons,
      apply_ite (List.countP isUpdateEff), pauseAllReg_countP,
      engineAction_countP, isUpdateEff]
  · simp [callsOf_append, callsOf_cons_call, callsOf_nil, apply_ite callsOf,
      pauseAllReg_callsOf, engineAction_callsOf,
      apply_ite Sound.position, apply_ite Sound.duration, List.append_assoc]

theorem update_order_witness :
    ∃ regF sF t,
      performCommand [("sound1", sampleSound)] updateCmd =
        (regF, t ++ [Eff.next (Event.sound (soundEvent sF "update"))])
      ∧ lookupSound regF "sound1" = some sF
      ∧ t.countP isUpdateEff = 0
      ∧ callsOf t =
          (if truthyQ updateCmd.position then
            [EngineCall.setPosition "sound1" (updateCmd.position.getD 0)] else [])
          ++ (if truthyQ updateCmd.relative then
                [EngineCall.setPosition "sound1"
                  ((if truthyQ updateCmd.position then updateCmd.position.getD 0
                    else sampleSound.position) + updateCmd.relative.getD 0)] else [])
          ++ (if truthyQ updateCmd.progress then
                [EngineCall.setPosition "sound1"
                  (sampleSound.duration * updateCmd.progress.getD 0)] else [])
          ++ (if truthyStr updateCmd.action
                && (updateCmd.action.getD "" == "play"
                    || updateCmd.action.getD "" == "resume")
              then [EngineCall.pauseAllCall] else [])
          ++ (if truthyStr updateCmd.action then
                [EngineCall.method "sound1" (updateCmd.action.getD "")] else [])
          ++ (if truthyQ updateCmd.volume then
                [EngineCall.setVolume "sound1" (updateCmd.volume.getD 0)] else []) :=
  update_order [("sound1", sampleSound)] updateCmd "sound1" sampleSound rfl (by decide)

theorem pauseAllReg_trace_decomp (reg : Registry) (j : String) (a : Sound)
    (hmem : (j, a) ∈ reg) :
    ∃ u v, (pauseAllReg reg).2 = u ++ (enginePauseSound a).2 ++ v := by
  induction reg with
  | nil => simp at hmem
  | cons hd tl ih =>
      rcases List.mem_cons.mp hmem with h1 | h2
      · refine ⟨[], (pauseAllReg tl).2, ?_⟩
        rw [← h1]
        simp [pauseAllReg]
      · obtain ⟨u, v, huv⟩ := ih h2
        exact ⟨(enginePauseSound hd.2).2 ++ u, v,
          by simp [pauseAllReg, huv, List.append_assoc]⟩

theorem engineAction_play_after_pause (s : Sound) :
    engineAction (enginePauseSound s).1 "play" =
      ({ s with paused := false, playState := 1 },
       [Eff.next (Event.sound
          (soundEvent { s with paused := false, playState := 1 } "play"))]) := by
  unfold enginePauseSound
  split_ifs <;> rfl

/-- C4: dispatching a `play` (or `resume`) action to sound B while sound A
is playing makes the engine-wide pause sweep run before B's method is
invoked, so A's `pause` event occurs in the trace strictly before the call
of B's play method — and, for `play`, strictly before B's `play` event. -/
theorem pause_before_play (reg : Registry) (c : Command) (aId bId : String)
    (a b : Sound) (act : String)
    (hcid : c.id = some bId)
    (hcact : c.action = some act)
    (hacts : act = "play" ∨ act = "resume")
    (hpos : truthyQ c.position = false)
    (hrel : truthyQ c.relative = false)
    (hprog : truthyQ c.progress = false)
    (hvol : truthyQ c.volume = false)
    (hfound : lookupSound reg bId = some b)
    (hmem : (aId, a) ∈ reg)
    (hne : aId ≠ bId)
    (hapaused : a.paused = false)
    (hastate : a.playState = 1) :
    (∃ l1 l2 l3,
      (performCommand reg c).2 =
        l1 ++ Eff.next (Event.sound (soundEvent { a with paused := true } "pause"))
           :: (l2 ++ Eff.call (EngineCall.method bId act) :: l3))
    ∧ (act = "play" →
      ∃ m1 m2 m3,
        (performCommand reg c).2 =
          m1 ++ Eff.next (Event.sound (soundEvent { a with paused := true } "pause"))
             :: (m2 ++ Eff.next (Event.sound
                  (soundEvent { b with paused := false, playState := 1 } "play"))
                :: m3)) := by
  have h1 : performCommand reg c = performUpdate reg c bId b := by
    unfold performCommand
    rw [hcid]
    simp only [Option.getD_some]
    rw [hfound]
  have hmem3 : (aId, a) ∈ setSound reg bId b :=
    mem_setSound_of_ne reg bId aId b a hmem hne
  obtain ⟨u, v, huv⟩ := pauseAllReg_trace_decomp (setSound reg bId b) aId a hmem3
  have hea : (enginePauseSound a).2 =
      [Eff.next (Event.sound (soundEvent { a with paused := true } "pause"))] := by
    simp [enginePauseSound, hapaused, hastate]
  rw [hea] at huv
  rcases hacts with hact | hact <;> subst hact
  · -- action "play"
    have htr : (performUpdate reg c bId b).2 =
        Eff.call EngineCall.pauseAllCall :: ((pauseAllReg (setSound reg bId b)).2
          ++ (Eff.call (EngineCall.method bId "play")
              :: (Eff.next (Event.sound
                    (soundEvent { b with paused := false, playState := 1 } "play"))
                :: [Eff.next (Event.sound
                    (soundEvent { b with paused := false, playState := 1 } "update"))]))) := by
      simp [performUpdate, hpos, hrel, hprog, hvol, hcact, truthyStr,
        engineAction_play_after_pause]
    rw [h1, htr, huv]
    constructor
    · exact ⟨Eff.call EngineCall.pauseAllCall :: u, v,
        [Eff.next (Event.sound
            (soundEvent { b with paused := false, playState := 1 } "play")),
         Eff.next (Event.sound
            (soundEvent { b with paused := false, playState := 1 } "update"))],
        by simp [List.append_assoc]⟩
    · intro _
      exact ⟨Eff.call EngineCall.pauseAllCall :: u,
        v ++ [Eff.call (EngineCall.method bId "play")],
        [Eff.next (Event.sound
            (soundEvent { b with paused := false, playState := 1 } "update"))],
        by simp [List.append_assoc]⟩
  · -- action "resume"
    have htr : (performUpdate reg c bId b).2 =
        Eff.call EngineCall.pauseAllCall :: ((pauseAllReg (setSound reg bId b)).2
          ++ (Eff.call (EngineCall.method bId "resume")
              :: ((engineAction (enginePauseSound b).1 "resume").2
                ++ [Eff.next (Event.sound
                    (soundEvent (engineAction (enginePauseSound b).1 "resume").1
                      "update"))]))) := by
      simp [performUpdate, hpos, hrel, hprog, hvol, hcact, truthyStr]
    rw [h1, htr, huv]
    constructor
    · exact ⟨Eff.call EngineCall.pauseAllCall :: u, v,
        (engineAction (enginePauseSound b).1 "resume").2
          ++ [Eff.next (Event.sound
              (soundEvent (engineAction (enginePauseSound b).1 "resume").1 "update"))],
        by simp [List.append_assoc]⟩
    · intro hcontra
      exact absurd hcontra (by decide)

theorem pause_before_play_witness :
    (∃ l1 l2 l3,
      (performCommand [("sound0", playingSound), ("sound1", sampleSound)]
          { id := some "sound1", action := some "play" }).2 =
        l1 ++ Eff.next (Event.sound (soundEvent { playingSound with paused := true } "pause"))
           :: (l2 ++ Eff.call (EngineCall.method "sound1" "play") :: l3))
    ∧ ("play" = "play" →
      ∃ m1 m2 m3,
        (performCommand [("sound0", playingSound), ("sound1", sampleSound)]
            { id := some "sound1", action := some "play" }).2 =
          m1 ++ Eff.next (Event.sound (soundEvent { playingSound with paused := true } "pause"))
             :: (m2 ++ Eff.next (Event.sound
                  (soundEvent { sampleSound with paused := false, playState := 1 } "play"))
                :: m3)) :=
  pause_before_play [("sound0", playingSound), ("sound1", sampleSound)]
    { id := some "sound1", action := some "play" } "sound0" "sound1"
    playingSound sampleSound "play" rfl rfl (Or.inl rfl) rfl rfl rfl rfl
    (by decide) (by decide) (by decide) rfl rfl

end SoundDriver
